import Mathlib

/-!
Shallow embedding of the crawl orchestrator in `src/webscraper/webscraper.py`
(class `WebScraper`), together with proofs settling the frozen claims about it.

Modelling conventions:
* The SQLite table `url_metadata` is a list of `UrlRecord` in insertion order;
  `url` is the primary key, so `save_url_metadata` (INSERT OR IGNORE) appends
  only when no record with that url exists.
* `pickle.dump`/`pickle.load` of the frontier deque is modelled by a concrete
  reversible token codec (`dumpQ`/`parseQ`); the queue file is
  `Option (List Token)` (`none` = file absent).
* External collaborators (headless-browser fetch, BeautifulSoup parsing, the
  OpenAI embedding call) are parameters collected in `Env`.  `fetch url = none`
  models a fetch failure (`fetch_with_headless_browser` returning `None`).
* Python truthiness is modelled where the source relies on it: a fetched page
  is "truthy" iff it is a non-empty string, and a returned tuple is truthy iff
  it is non-empty (`process_url` returns are modelled as `List (Option String)`
  so that tuple length — and hence tuple unpacking — is observable).
* The one uncaught exception path exercised by the claims (the
  `save_url_metadata` call at line 311 of `process_url`, which is wrapped in no
  `try`) is modelled by `Env.metaFail`; errors the source catches locally
  (`generate_embedding`, `collection.add`, `extract_links`, `mark_url_processed`)
  are modelled by their caught outcome.
-/

namespace Scraper

/-- `str.startswith` on Python strings, modelled on the character lists. -/
def pyStartsWith (s pre : String) : Bool :=
  pre.data.isPrefixOf s.data

/-- One row of the `url_metadata` SQLite table. -/
structure UrlRecord where
  url : String
  content_hash : Int
  depth : Nat
  title : Option String
  processed : Bool
deriving DecidableEq, Inhabited

/-- The metadata store: the rows of `url_metadata` in insertion order. -/
abbrev Store := List UrlRecord

/-- `is_url_visited`: `SELECT 1 FROM url_metadata WHERE url = ?` is non-empty. -/
def isUrlVisited (store : Store) (url : String) : Bool :=
  store.any fun r => r.url = url

/-- `save_url_metadata`: `INSERT OR IGNORE INTO url_metadata ...` — appends a
row only when no row with this url (the primary key) exists. -/
def save_url_metadata (store : Store) (url : String) (content_hash : Int)
    (depth : Nat) (title : Option String) : Store :=
  if isUrlVisited store url then store
  else store ++ [⟨url, content_hash, depth, title, false⟩]

/-- `mark_url_processed`: `UPDATE url_metadata SET processed = 1 WHERE url = ?`. -/
def mark_url_processed (store : Store) (url : String) : Store :=
  store.map fun r => if r.url = url then { r with processed := true } else r

/-- The rows of the store whose key is `url` (for stating uniqueness claims). -/
def recordsFor (store : Store) (url : String) : List UrlRecord :=
  store.filter fun r => r.url = url

/-- `check_bulk_links`: partitions the input urls into those already in the
database and those not, preserving input order (the source builds the set of
matching rows of a bulk `IN` query and then walks `urls` in order). -/
def check_bulk_links (store : Store) (urls : List String) :
    List String × List String :=
  (urls.filter fun u => isUrlVisited store u,
   urls.filter fun u => !isUrlVisited store u)

/-- `extract_links`, with the HTML parsing factored out: `hrefs` are the
`a[href]` values BeautifulSoup finds.  The source keeps the hrefs that start
with `self.start_url`, then calls `check_bulk_links` on them — but only logs
that partition and returns the unfiltered prefix-matched list `links`
(the `not_valid_links, all_links` result is discarded). -/
def extract_links (store : Store) (start_url : String) (hrefs : List String) :
    List String :=
  let links := hrefs.filter fun h => pyStartsWith h start_url
  let _bulk := if links.isEmpty then ([], []) else check_bulk_links store links
  links

/-- What the spec's Link Filter (§4.3 `filterLinks`) says `extract_links`
should return: in-scope hrefs that are not already known to the store.
Modelled from the spec for comparison with `extract_links`. -/
def filterLinks_spec (store : Store) (start_url : String)
    (hrefs : List String) : List String :=
  (hrefs.filter fun h => pyStartsWith h start_url).filter
    fun h => !isUrlVisited store h

/-! ### Frontier persistence (`save_queue` / `load_queue`) -/

/-- A token of the serialized queue file (`pickle` modelled concretely). -/
abbrev Token := String ⊕ Nat

/-- Serialization of a frontier (a deque of `(url, depth)` pairs). -/
def dumpQ : List (String × Nat) → List Token
  | [] => []
  | (u, d) :: rest => Sum.inl u :: Sum.inr d :: dumpQ rest

/-- Deserialization; `none` models an unreadable (corrupt) file. -/
def parseQ : List Token → Option (List (String × Nat))
  | [] => some []
  | Sum.inl u :: Sum.inr d :: rest => (parseQ rest).map fun q => (u, d) :: q
  | _ => none

/-- `save_queue`: overwrite the queue file with the pickled queue. -/
def save_queue (queue : List (String × Nat)) : Option (List Token) :=
  some (dumpQ queue)

/-- `load_queue`: load the queue file if present; a missing or unreadable file
yields a fresh empty deque (the source's `except` branch). -/
def load_queue (file : Option (List Token)) : List (String × Nat) :=
  match file with
  | none => []
  | some toks =>
    match parseQ toks with
    | some q => q
    | none => []

theorem parseQ_dumpQ (q : List (String × Nat)) : parseQ (dumpQ q) = some q := by
  induction q with
  | nil => rfl
  | cons e rest ih => cases e; simp [dumpQ, parseQ, ih]

/-! ### Configuration and external collaborators -/

/-- The `WebScraper.__init__` parameters the crawl logic reads. -/
structure Config where
  start_url : String
  max_links : Nat := 30
  max_depth : Nat := 10
  skip_embedding : Bool := false
deriving DecidableEq, Inhabited

/-- External collaborators and fault injection.

* `fetch`: `fetch_with_headless_browser` — `none` models the caught-exception
  path returning `None`.
* `extract_info`: title and first-5-paragraph summary of a fetched page
  (BeautifulSoup work; errors there are caught and yield the sentinels, so a
  total function is faithful).
* `pageLinks`: the `a[href]` values BeautifulSoup finds when parsing a string
  as HTML (used by `extract_links`; parsing a non-HTML string yields `[]`).
* `hashFn`: Python's builtin `hash` on the content string.
* `embed`: `generate_embedding` — errors are caught there and return `None`.
* `metaFail`: the url for which the un-`try`-guarded `save_url_metadata` call
  inside `process_url` raises (e.g. an SQLite commit failure); this is the
  uncaught control-loop error path.
* `chromaAddFail`: `collection.add` raising (caught inside `store_in_chroma`). -/
structure Env where
  fetch : String → Option String
  extract_info : String → String × String
  pageLinks : String → List String
  hashFn : String → Int
  embed : String → Option (List Int)
  metaFail : String → Bool
  chromaAddFail : String → Bool

/-- Python truthiness of `html_content` (`None` and `""` are falsy). -/
def truthyHtml : Option String → Bool
  | none => false
  | some s => s ≠ ""

/-- `is_already_indexed`: true if the url has a metadata row, else if the
ChromaDB collection already holds a document with this id. -/
def is_already_indexed (store : Store) (chroma : List String) (url : String) :
    Bool :=
  if isUrlVisited store url then true else chroma.contains url

/-- `store_in_chroma`.  Returns the updated `(store, chroma)` pair.  The whole
body is inside one `try`, so a raising `save_url_metadata` or `collection.add`
leaves the remaining statements skipped and the error logged. -/
def store_in_chroma (env : Env) (cfg : Config) (store : Store)
    (chroma : List String) (title content url : String) (depth : Nat)
    (content_hash : Int) : Store × List String :=
  if depth ≠ 0 ∧ is_already_indexed store chroma url then (store, chroma)
  else
    let embedding := if cfg.skip_embedding then none else env.embed content
    if env.metaFail url then (store, chroma)
    else
      let store1 := save_url_metadata store url content_hash depth (some title)
      if cfg.skip_embedding ∨ embedding.isSome then
        if env.chromaAddFail url then (store1, chroma)
        else (mark_url_processed store1 url, chroma ++ [url])
      else (store1, chroma)

/-- Outcome of one `process_url` call.

`ret` is the returned Python tuple as a list of values (so that tuple length,
and hence tuple unpacking at call sites, is observable); `fetched` records
whether `fetch_with_headless_browser` was invoked; `err = true` means the call
raised (the un-`try`-guarded `save_url_metadata`), in which case `ret` is
meaningless and the states are those at the raise point. -/
structure PUResult where
  ret : List (Option String)
  store : Store
  chroma : List String
  fetched : Bool
  err : Bool
deriving DecidableEq, Inhabited

/-- `process_url`: skip (without fetching) when `depth != 0` and the url
already has a metadata row; otherwise fetch, and on a truthy page extract,
record metadata, store in ChromaDB and return `(title, content, html)`;
on a falsy page return `(None, None, html_content)`. -/
def process_url (env : Env) (cfg : Config) (store : Store)
    (chroma : List String) (url : String) (depth : Nat) : PUResult :=
  if depth ≠ 0 ∧ isUrlVisited store url then
    { ret := [none, none, none], store := store, chroma := chroma,
      fetched := false, err := false }
  else
    let html := env.fetch url
    if truthyHtml html then
      let h := html.getD ""
      let (title, content) := env.extract_info h
      let content_hash := env.hashFn content
      if env.metaFail url then
        { ret := [], store := store, chroma := chroma, fetched := true,
          err := true }
      else
        let store1 := save_url_metadata store url content_hash depth none
        let sc := store_in_chroma env cfg store1 chroma title content url depth
          content_hash
        { ret := [some title, some content, some h], store := sc.1,
          chroma := sc.2, fetched := true, err := false }
    else
      { ret := [none, none, html], store := store, chroma := chroma,
        fetched := true, err := false }

/-! ### The sequential crawl loop (`comprehensive_crawler`) -/

/-- Instrumentation for one `save_queue` checkpoint of the sequential loop:
the entry whose processing triggered it, the frontier just before that entry
was popped, and the frontier that was saved. -/
structure Checkpoint where
  popped : String × Nat
  pre : List (String × Nat)
  saved : List (String × Nat)
deriving DecidableEq, Inhabited

/-- State of one `comprehensive_crawler` run.  `queue`, `visited`,
`link_count`, `store` and `results` mirror the Python attributes; `file` is
the durable queue file; `fetchedLog`, `savedLog` (newest first) and
`checkpoints` instrument the events the claims speak about; `errored` records
the top-level `except` path having fired; `removed` records `os.remove` of the
queue file. -/
structure SeqState where
  queue : List (String × Nat)
  visited : List String
  link_count : Nat
  store : Store
  chroma : List String
  file : Option (List Token)
  results : List (Option String × Option String × Option String)
  fetchedLog : List (String × Nat)
  savedLog : List (List (String × Nat))
  checkpoints : List Checkpoint
  errored : Bool
  removed : Bool
deriving DecidableEq, Inhabited

/-- The state a fuel-exhausted run maps to (only used under `Option.getD`). -/
def seqDefault : SeqState :=
  { queue := [], visited := [], link_count := 0, store := [], chroma := [],
    file := none, results := [], fetchedLog := [], savedLog := [],
    checkpoints := [], errored := false, removed := false }

/-- Body of one iteration of the sequential `while` loop, for the popped entry
`(url, depth)` and remaining queue `rest`.  Returns the new state and an abort
flag: `true` means an exception escaped the body, so the top-level `except`
returns immediately.

The source skips (`continue`) on `depth > max_depth` or an in-memory-visited
url; otherwise it calls `process_url(url, 0)` — with a literal `0`, not
`depth`.  A returned tuple is always truthy, so `if result:` always increments
`link_count` and appends to `results`; the unpacking `title, content,
html_content = result` is the 3-into-3 case.  Newly found links are pushed at
`depth + 1` when in budget and in depth, and the queue is then checkpointed. -/
def seqStep (env : Env) (cfg : Config) (url : String) (depth : Nat)
    (rest : List (String × Nat)) (s : SeqState) : SeqState × Bool :=
  let s := { s with queue := rest }
  if depth > cfg.max_depth then (s, false)
  else if url ∈ s.visited then (s, false)
  else
    let s := { s with visited := url :: s.visited }
    let r := process_url env cfg s.store s.chroma url 0
    let s := { s with
      store := r.store, chroma := r.chroma,
      fetchedLog := (if r.fetched then (url, depth) :: s.fetchedLog
                     else s.fetchedLog) }
    if r.err then ({ s with errored := true }, true)
    else
      match r.ret with
      | [title, content, html] =>
        let s := { s with
          link_count := s.link_count + 1,
          results := s.results ++ [(title, content, html)] }
        let s :=
          if s.link_count < cfg.max_links ∧ depth + 1 ≤ cfg.max_depth then
            let hrefs := match html with
              | some h => env.pageLinks h
              | none => []
            let links := extract_links s.store cfg.start_url hrefs
            let newEntries := (links.filter fun l =>
                decide (l ∉ s.visited) && !(isUrlVisited s.store l) &&
                  decide (s.link_count < cfg.max_links)).map
              fun l => (l, depth + 1)
            { s with queue := s.queue ++ newEntries }
          else s
        ({ s with
          file := some (dumpQ s.queue),
          savedLog := s.queue :: s.savedLog,
          checkpoints := ⟨(url, depth), (url, depth) :: rest, s.queue⟩ ::
            s.checkpoints }, false)
      | _ =>
        -- unpacking a tuple of length ≠ 3 raises; caught at the top level
        ({ s with errored := true }, true)

/-- The `while self.queue and self.link_count < self.max_links` loop, with
fuel; `none` is fuel exhaustion (never an actual run). -/
def crawlLoop (env : Env) (cfg : Config) : Nat → SeqState → Option SeqState
  | 0, _ => none
  | fuel + 1, s =>
    match s.queue with
    | [] => some s
    | (url, depth) :: rest =>
      if cfg.max_links ≤ s.link_count then some s
      else
        let sb := seqStep env cfg url depth rest s
        if sb.2 then some sb.1 else crawlLoop env cfg fuel sb.1

/-- The crawl-start frontier: the loaded queue, seeded with
`(start_url, 0)` when the load came back empty (`if not self.queue`). -/
def initQueue (cfg : Config) (file₀ : Option (List Token)) :
    List (String × Nat) :=
  let q0 := load_queue file₀
  if q0.isEmpty then [(cfg.start_url, 0)] else q0

/-- The state of a freshly constructed `WebScraper` at the top of
`comprehensive_crawler`, after `load_queue`/seeding. -/
def initSeq (cfg : Config) (store₀ : Store) (chroma₀ : List String)
    (file₀ : Option (List Token)) : SeqState :=
  { queue := initQueue cfg file₀, visited := [], link_count := 0,
    store := store₀, chroma := chroma₀, file := file₀, results := [],
    fetchedLog := [], savedLog := [], checkpoints := [], errored := false,
    removed := false }

/-- One call of `comprehensive_crawler` on a freshly constructed scraper:
load the queue (seeding it when empty), run the loop, and on a normal exit
delete the queue file when the queue drained.  On the `except` path the
function returns `results` at once (no deletion, no further save). -/
def crawlRun (env : Env) (cfg : Config) (store₀ : Store)
    (chroma₀ : List String) (file₀ : Option (List Token)) (fuel : Nat) :
    Option SeqState :=
  match crawlLoop env cfg fuel (initSeq cfg store₀ chroma₀ file₀) with
  | none => none
  | some s =>
    if s.errored then some s
    else if s.queue.isEmpty && s.file.isSome then
      some { s with file := none, removed := true }
    else some s

/-! ### The concurrent crawl loop (`comprehensive_crawler_threaded`)

The worker pool is modelled by serializing the `process_url` calls of the
submitted futures in submission order (one admissible interleaving; SQLite and
the GIL serialize the store accesses anyway).  The completion loop then folds
over the completed futures.  The conclusions proved about this model hold for
any completion order, because the handler is a no-op on every completion whose
result is not a 2-tuple (see `handleCompletion_not2`). -/

/-- One completed future: the submitted `(url, depth)`, the tuple
`process_url` returned (as a list of values) and whether it raised instead
(`future.result()` re-raises in the handler). -/
structure Completion where
  entry : String × Nat
  ret : List (Option String)
  err : Bool
deriving DecidableEq, Inhabited

/-- State of one `comprehensive_crawler_threaded` run.  `submitted` is the
(fixed) set of tasks handed to the pool; the threaded loop never pops
`queue`.  `visited` is never written by the threaded code. -/
structure TState where
  submitted : List (String × Nat)
  queue : List (String × Nat)
  visited : List String
  link_count : Nat
  store : Store
  chroma : List String
  file : Option (List Token)
  yields : List (Option String × Option String)
  fetchedLog : List (String × Nat)
  savedLog : List (List (String × Nat))
  removed : Bool
deriving DecidableEq, Inhabited

/-- Run the submitted `process_url` tasks (serialized in submission order),
threading the shared store, and collect the completions and fetch events. -/
def runWorkers (env : Env) (cfg : Config) :
    List (String × Nat) → Store → List String →
    List Completion × Store × List String × List (String × Nat)
  | [], store, chroma => ([], store, chroma, [])
  | (url, depth) :: rest, store, chroma =>
    let r := process_url env cfg store chroma url depth
    let w := runWorkers env cfg rest r.store r.chroma
    (⟨(url, depth), r.ret, r.err⟩ :: w.1, w.2.1, w.2.2.1,
     (if r.fetched then [(url, depth)] else []) ++ w.2.2.2)

/-- The body of the `for future in as_completed(futures)` loop for one
completed future.  `try: result = future.result()` re-raises a worker
exception; `if result:` tests tuple truthiness (non-empty); `title, content =
result` succeeds only for a 2-tuple and raises `ValueError` otherwise — every
exception is caught and logged per url.  On the (dead, for the actual
`process_url`) 2-tuple path the handler increments `link_count`, yields, and —
in budget and in depth — extracts links from `result[1]` (the content string,
not the HTML) and appends survivors. -/
def handleCompletion (env : Env) (cfg : Config) (st : TState)
    (c : Completion) : TState :=
  if c.err then st
  else
    match c.ret with
    | [] => st
    | [title, content] =>
      let st := { st with
        link_count := st.link_count + 1,
        yields := st.yields ++ [(title, content)] }
      if st.link_count < cfg.max_links ∧ c.entry.2 + 1 ≤ cfg.max_depth then
        let hrefs := match content with
          | some ctext => env.pageLinks ctext
          | none => []
        let links := extract_links st.store cfg.start_url hrefs
        let newEntries := (links.filter fun l =>
            decide (l ∉ st.visited) &&
              decide (st.link_count < cfg.max_links)).map
          fun l => (l, c.entry.2 + 1)
        { st with queue := st.queue ++ newEntries }
      else st
    | _ => st

/-- One call of `comprehensive_crawler_threaded` on a freshly constructed
scraper: load the queue (seeding it when empty), submit every queue entry to
the pool once, drain the completions, save the queue, and delete the queue
file only if the queue is empty (it never is: entries are never popped). -/
def threadedRun (env : Env) (cfg : Config) (store₀ : Store)
    (chroma₀ : List String) (file₀ : Option (List Token)) : TState :=
  let q1 := initQueue cfg file₀
  let w := runWorkers env cfg q1 store₀ chroma₀
  let st0 : TState :=
    { submitted := q1, queue := q1, visited := [], link_count := 0,
      store := w.2.1, chroma := w.2.2.1, file := file₀, yields := [],
      fetchedLog := w.2.2.2, savedLog := [], removed := false }
  let st1 := w.1.foldl (handleCompletion env cfg) st0
  let st2 := { st1 with
    file := some (dumpQ st1.queue), savedLog := st1.queue :: st1.savedLog }
  if st2.queue.isEmpty && st2.file.isSome then
    { st2 with file := none, removed := true }
  else st2

/-! ### Invariants of the sequential loop -/

/-- A well-formed checkpoint: the frontier that was saved is the frontier
before the pop, minus the popped entry at its head, plus freshly discovered
entries — each one child-depth and never the popped url (which is in
`visited` by then).  In particular the entry whose processing triggered the
checkpoint does not occur in the saved snapshot unless it occurred in the
frontier a second time beforehand. -/
def CkptOk (cp : Checkpoint) : Prop :=
  cp.pre.head? = some cp.popped ∧
  ∃ app, cp.saved = cp.pre.tail ++ app ∧
    ∀ a ∈ app, a.1 ≠ cp.popped.1 ∧ a.2 = cp.popped.2 + 1

/-- The durable queue file determined by the save history: the most recent
`save_queue` argument, or the initial file if no save happened. -/
def headFile (file₀ : Option (List Token)) :
    List (List (String × Nat)) → Option (List Token)
  | [] => file₀
  | q :: _ => some (dumpQ q)

/-- Master invariant of the sequential loop: the budget bound, the
results/counter correspondence, the depth bound on fetched entries, the
checkpoint shape, and the file/save-history correspondence. -/
def Inv (cfg : Config) (file₀ : Option (List Token)) (s : SeqState) : Prop :=
  s.link_count ≤ cfg.max_links ∧
  s.results.length = s.link_count ∧
  (∀ e ∈ s.fetchedLog, e.2 ≤ cfg.max_depth) ∧
  (∀ cp ∈ s.checkpoints, CkptOk cp) ∧
  s.file = headFile file₀ s.savedLog

theorem seqStep_inv (env : Env) (cfg : Config) (url : String) (depth : Nat)
    (rest : List (String × Nat)) (s : SeqState)
    (file₀ : Option (List Token))
    (hlt : s.link_count < cfg.max_links) (hInv : Inv cfg file₀ s) :
    Inv cfg file₀ (seqStep env cfg url depth rest s).1 ∧
    ((seqStep env cfg url depth rest s).2 = false →
      (seqStep env cfg url depth rest s).1.errored = s.errored) ∧
    ((seqStep env cfg url depth rest s).2 = true →
      (seqStep env cfg url depth rest s).1.errored = true) ∧
    (seqStep env cfg url depth rest s).1.removed = s.removed := by
  obtain ⟨h1, h2, h3, h4, h5⟩ := hInv
  by_cases hd : depth > cfg.max_depth
  · simp only [seqStep, if_pos hd]
    exact ⟨⟨h1, h2, h3, h4, h5⟩, by simp, by simp, by simp⟩
  by_cases hv : url ∈ s.visited
  · simp only [seqStep, if_neg hd, if_pos hv]
    exact ⟨⟨h1, h2, h3, h4, h5⟩, by simp, by simp, by simp⟩
  have hdep : depth ≤ cfg.max_depth := by omega
  set r := process_url env cfg s.store s.chroma url 0 with hr
  have h3' : ∀ e ∈ (if r.fetched then (url, depth) :: s.fetchedLog
      else s.fetchedLog), e.2 ≤ cfg.max_depth := by
    intro e hmem
    by_cases hf : r.fetched = true
    · rw [if_pos hf] at hmem
      rcases List.mem_cons.mp hmem with rfl | hmem'
      · exact hdep
      · exact h3 e hmem'
    · rw [if_neg hf] at hmem
      exact h3 e hmem
  by_cases he : r.err = true
  · simp only [seqStep, if_neg hd, if_neg hv, ← hr, if_pos he]
    exact ⟨⟨h1, h2, h3', h4, h5⟩, by simp, by simp, by simp⟩
  simp only [seqStep, if_neg hd, if_neg hv, ← hr, if_neg he]
  match hret : r.ret with
  | [] =>
    dsimp only
    exact ⟨⟨h1, h2, h3', h4, h5⟩, by simp, by simp, by simp⟩
  | [a] =>
    dsimp only
    exact ⟨⟨h1, h2, h3', h4, h5⟩, by simp, by simp, by simp⟩
  | [a, b] =>
    dsimp only
    exact ⟨⟨h1, h2, h3', h4, h5⟩, by simp, by simp, by simp⟩
  | a :: b :: c :: d :: tl =>
    dsimp only
    exact ⟨⟨h1, h2, h3', h4, h5⟩, by simp, by simp, by simp⟩
  | [title, content, html] =>
    dsimp only
    split
    case isTrue hcond =>
      refine ⟨⟨by simpa using hlt, by simpa using h2, h3', ?_,
        by simp [headFile]⟩, by simp, by simp, by simp⟩
      intro cp hmem
      rcases List.mem_cons.mp (by simpa using hmem) with rfl | hmem'
      · refine ⟨rfl, _, rfl, ?_⟩
        intro a hmem2
        simp only [List.mem_map, List.mem_filter] at hmem2
        obtain ⟨l, ⟨_, hp⟩, rfl⟩ := hmem2
        have hlu : l ≠ url := by
          intro hEq
          subst hEq
          simp at hp
        exact ⟨hlu, rfl⟩
      · exact h4 cp hmem'
    case isFalse hcond =>
      refine ⟨⟨by simpa using hlt, by simpa using h2, h3', ?_,
        by simp [headFile]⟩, by simp, by simp, by simp⟩
      intro cp hmem
      rcases List.mem_cons.mp (by simpa using hmem) with rfl | hmem'
      · exact ⟨rfl, [], by simp, by simp⟩
      · exact h4 cp hmem'

theorem crawlLoop_inv (env : Env) (cfg : Config) (file₀ : Option (List Token))
    (fuel : Nat) :
    ∀ (s s' : SeqState), crawlLoop env cfg fuel s = some s' →
      Inv cfg file₀ s → s.errored = false →
      Inv cfg file₀ s' ∧ s'.removed = s.removed ∧
        (s'.errored = false → s'.queue = [] ∨ cfg.max_links ≤ s'.link_count) := by
  induction fuel with
  | zero =>
    intro s s' h
    simp [crawlLoop] at h
  | succ fuel ih =>
    intro s s' h hInv herr
    cases hq : s.queue with
    | nil =>
      simp only [crawlLoop, hq] at h
      cases h
      exact ⟨hInv, rfl, fun _ => Or.inl hq⟩
    | cons e rest =>
      obtain ⟨url, depth⟩ := e
      simp only [crawlLoop, hq] at h
      by_cases hb : cfg.max_links ≤ s.link_count
      · rw [if_pos hb] at h
        cases h
        exact ⟨hInv, rfl, fun _ => Or.inr hb⟩
      · rw [if_neg hb] at h
        have hstep := seqStep_inv env cfg url depth rest s file₀
          (by omega) hInv
        by_cases ha : (seqStep env cfg url depth rest s).2 = true
        · rw [if_pos ha] at h
          cases h
          refine ⟨hstep.1, hstep.2.2.2, ?_⟩
          intro herr'
          rw [hstep.2.2.1 ha] at herr'
          exact absurd herr' (by decide)
        · rw [if_neg ha] at h
          have hne : (seqStep env cfg url depth rest s).2 = false :=
            Bool.eq_false_iff.mpr ha
          have herr1 : (seqStep env cfg url depth rest s).1.errored = false := by
            rw [hstep.2.1 hne, herr]
          obtain ⟨hI, hrem, hexit⟩ := ih _ _ h hstep.1 herr1
          exact ⟨hI, by rw [hrem, hstep.2.2.2], hexit⟩

theorem initSeq_inv (cfg : Config) (store₀ : Store) (chroma₀ : List String)
    (file₀ : Option (List Token)) :
    Inv cfg file₀ (initSeq cfg store₀ chroma₀ file₀) :=
  ⟨Nat.zero_le _, rfl, fun _ h => absurd h (List.not_mem_nil _),
   fun _ h => absurd h (List.not_mem_nil _), rfl⟩

/-- Everything the claims need about one terminating `comprehensive_crawler`
call: the budget/depth invariants, the `except` path's effect on the durable
file, and the normal exit condition and file handling. -/
theorem crawlRun_spec (env : Env) (cfg : Config) (store₀ : Store)
    (chroma₀ : List String) (file₀ : Option (List Token)) (fuel : Nat)
    (s' : SeqState)
    (h : crawlRun env cfg store₀ chroma₀ file₀ fuel = some s') :
    (s'.link_count ≤ cfg.max_links ∧
     s'.results.length = s'.link_count ∧
     (∀ e ∈ s'.fetchedLog, e.2 ≤ cfg.max_depth) ∧
     (∀ cp ∈ s'.checkpoints, CkptOk cp)) ∧
    (s'.errored = true →
      s'.removed = false ∧ s'.file = headFile file₀ s'.savedLog) ∧
    (s'.errored = false →
      (s'.queue = [] ∨ s'.link_count = cfg.max_links) ∧
      (s'.queue = [] → s'.file = none) ∧
      (s'.queue ≠ [] → s'.removed = false ∧
        s'.file = headFile file₀ s'.savedLog)) := by
  unfold crawlRun at h
  cases hl : crawlLoop env cfg fuel (initSeq cfg store₀ chroma₀ file₀) with
  | none => rw [hl] at h; exact absurd h (by simp)
  | some s₁ =>
    rw [hl] at h
    dsimp only at h
    obtain ⟨hI, hrem, hexit⟩ :=
      crawlLoop_inv env cfg file₀ fuel _ _ hl
        (initSeq_inv cfg store₀ chroma₀ file₀) rfl
    obtain ⟨i1, i2, i3, i4, i5⟩ := hI
    by_cases he : s₁.errored = true
    · rw [if_pos he] at h
      cases h
      exact ⟨⟨i1, i2, i3, i4⟩,
        fun _ => ⟨hrem, i5⟩,
        fun hne => absurd he (by rw [hne]; decide)⟩
    · rw [if_neg he] at h
      have he' : s₁.errored = false := Bool.eq_false_iff.mpr he
      have hcond := hexit he'
      by_cases hdel : (s₁.queue.isEmpty && s₁.file.isSome) = true
      · have hd2 := hdel
        simp only [Bool.and_eq_true] at hd2
        rw [if_pos hdel] at h
        cases h
        refine ⟨⟨i1, i2, i3, i4⟩, fun habs => absurd he' (by rw [habs]; decide),
          fun _ => ⟨?_, fun _ => rfl, ?_⟩⟩
        · rcases hcond with hq | hb
          · exact Or.inl hq
          · exact Or.inr (le_antisymm i1 hb)
        · intro hne
          exact absurd (List.isEmpty_iff.mp hd2.1) hne
      · rw [if_neg hdel] at h
        cases h
        refine ⟨⟨i1, i2, i3, i4⟩, fun habs => absurd he' (by rw [habs]; decide),
          fun _ => ⟨?_, ?_, fun _ => ⟨hrem, i5⟩⟩⟩
        · rcases hcond with hq | hb
          · exact Or.inl hq
          · exact Or.inr (le_antisymm i1 hb)
        · intro hq
          cases hf : s'.file with
          | none => rfl
          | some v =>
            exact absurd (by simp [hq, hf]) hdel

/-! ### Facts about the threaded loop -/

/-- `process_url` never returns a 2-tuple: every return statement in it is a
3-tuple (the raising path returns nothing at all). -/
theorem process_url_ret_not2 (env : Env) (cfg : Config) (store : Store)
    (chroma : List String) (url : String) (depth : Nat) :
    (process_url env cfg store chroma url depth).ret.length ≠ 2 := by
  unfold process_url
  repeat' split
  all_goals first
  | (simp; done)
  | (dsimp only; split <;> simp)

/-- The completion handler is a no-op unless the future returned a 2-tuple:
`title, content = result` raises `ValueError` for any other length, and the
per-url `except` swallows it before the yield, the increment and the
enqueue. -/
theorem handleCompletion_not2 (env : Env) (cfg : Config) (st : TState)
    (c : Completion) (hc : c.ret.length ≠ 2) :
    handleCompletion env cfg st c = st := by
  unfold handleCompletion
  split
  · rfl
  · split
    · rfl
    · rename_i heq
      exact absurd (by simp [heq]) hc
    · rfl

theorem foldl_handleCompletion_noop (env : Env) (cfg : Config) :
    ∀ (comps : List Completion) (st : TState),
      (∀ c ∈ comps, c.ret.length ≠ 2) →
      comps.foldl (handleCompletion env cfg) st = st := by
  intro comps
  induction comps with
  | nil => intro st _; rfl
  | cons c rest ih =>
    intro st hall
    rw [List.foldl_cons, handleCompletion_not2 env cfg st c (hall c (by simp))]
    exact ih st fun d hd => hall d (by simp [hd])

theorem runWorkers_ret_not2 (env : Env) (cfg : Config) :
    ∀ (q : List (String × Nat)) (store : Store) (chroma : List String),
      ∀ c ∈ (runWorkers env cfg q store chroma).1, c.ret.length ≠ 2 := by
  intro q
  induction q with
  | nil =>
    intro store chroma c hc
    simp [runWorkers] at hc
  | cons e rest ih =>
    intro store chroma c hc
    obtain ⟨url, depth⟩ := e
    simp only [runWorkers] at hc
    rcases List.mem_cons.mp hc with rfl | hc'
    · exact process_url_ret_not2 env cfg store chroma url depth
    · exact ih _ _ c hc'

theorem initQueue_not_isEmpty (cfg : Config) (file₀ : Option (List Token)) :
    (initQueue cfg file₀).isEmpty = false := by
  cases h : (load_queue file₀).isEmpty <;> simp [initQueue, h]

/-- The observable outcome of every `comprehensive_crawler_threaded` run:
nothing is yielded, `link_count` stays 0, and the queue at exit is exactly
the set of tasks submitted once at the start (the loaded queue, seeded when
empty) — and the saved snapshot is that same submitted queue. -/
theorem threadedRun_noop (env : Env) (cfg : Config) (store₀ : Store)
    (chroma₀ : List String) (file₀ : Option (List Token)) :
    (threadedRun env cfg store₀ chroma₀ file₀).yields = [] ∧
    (threadedRun env cfg store₀ chroma₀ file₀).link_count = 0 ∧
    (threadedRun env cfg store₀ chroma₀ file₀).queue =
      (threadedRun env cfg store₀ chroma₀ file₀).submitted ∧
    (threadedRun env cfg store₀ chroma₀ file₀).submitted =
      initQueue cfg file₀ ∧
    (threadedRun env cfg store₀ chroma₀ file₀).savedLog =
      [initQueue cfg file₀] := by
  unfold threadedRun
  dsimp only
  rw [foldl_handleCompletion_noop env cfg _ _
    (runWorkers_ret_not2 env cfg (initQueue cfg file₀) store₀ chroma₀)]
  rw [if_neg (by simp [initQueue_not_isEmpty cfg file₀])]
  exact ⟨rfl, rfl, rfl, rfl, rfl⟩

/-! ### Concrete environments and runs used by witnesses and counterexamples -/

/-- A benign environment: every fetch succeeds with a fixed page holding no
links, extraction yields fixed title/content, nothing fails. -/
def envOk : Env :=
  { fetch := fun _ => some "<html>", extract_info := fun _ => ("t", "c"),
    pageLinks := fun _ => [], hashFn := fun _ => 0, embed := fun _ => none,
    metaFail := fun _ => false, chromaAddFail := fun _ => false }

/-- `envOk` with every fetch hard-failing (returning `None`). -/
def envNoFetch : Env := { envOk with fetch := fun _ => none }

/-- `envOk` with the uncaught `save_url_metadata` call raising for every url. -/
def envMetaFail : Env := { envOk with metaFail := fun _ => true }

/-- A small concrete configuration (defaults: `max_links` 30, `max_depth` 10). -/
def cfgW : Config := { start_url := "s" }

/-- `cfgW` with `max_depth` 1 and embedding skipped. -/
def cfgShallow : Config :=
  { start_url := "s", max_links := 30, max_depth := 1, skip_embedding := true }

/-- The fresh seed run of the sequential crawler under `envOk`. -/
def seedRun : SeqState := (crawlRun envOk cfgW [] [] none 9).getD seqDefault

/-- The sequential run in which processing the seed raises. -/
def errRun : SeqState :=
  (crawlRun envMetaFail cfgW [] [] none 9).getD seqDefault

/-! ### The claims -/

/-- C1 (code bug): `extract_links` does not drop hrefs already present in the
metadata store.  At the spec's own example — hrefs
`["https://ex.com/a", "https://other.com/b", "https://ex.com/c"]`, root
`"https://ex.com"`, store containing `"https://ex.com/a"` — the code returns
`["https://ex.com/a", "https://ex.com/c"]`, not `["https://ex.com/c"]`:
it computes the correct partition via `check_bulk_links` but only logs it and
returns the unfiltered prefix-matched list, contradicting its own inline
comment ("Extract all links that dont already exist in the database"). -/
theorem extract_links_keeps_store_known_links :
    extract_links [⟨"https://ex.com/a", 0, 0, none, false⟩] "https://ex.com"
        ["https://ex.com/a", "https://other.com/b", "https://ex.com/c"] =
      ["https://ex.com/a", "https://ex.com/c"] ∧
    check_bulk_links [⟨"https://ex.com/a", 0, 0, none, false⟩]
        ["https://ex.com/a", "https://ex.com/c"] =
      (["https://ex.com/a"], ["https://ex.com/c"]) ∧
    filterLinks_spec [⟨"https://ex.com/a", 0, 0, none, false⟩] "https://ex.com"
        ["https://ex.com/a", "https://other.com/b", "https://ex.com/c"] =
      ["https://ex.com/c"] ∧
    extract_links [⟨"https://ex.com/a", 0, 0, none, false⟩] "https://ex.com"
        ["https://ex.com/a", "https://other.com/b", "https://ex.com/c"] ≠
      ["https://ex.com/c"] := by
  decide

/-- C2 (amended): in every terminating sequential `comprehensive_crawler`
run, `link_count` and the number of returned results never exceed
`max_links`, and every fetched entry has depth at most `max_depth`.  (The
threaded variant violates the depth part; see the counterexample.) -/
theorem seq_crawl_budget_and_depth_bounds (env : Env) (cfg : Config)
    (store₀ : Store) (chroma₀ : List String) (file₀ : Option (List Token))
    (fuel : Nat) (s' : SeqState)
    (h : crawlRun env cfg store₀ chroma₀ file₀ fuel = some s') :
    s'.link_count ≤ cfg.max_links ∧
    s'.results.length ≤ cfg.max_links ∧
    ∀ e ∈ s'.fetchedLog, e.2 ≤ cfg.max_depth := by
  obtain ⟨⟨i1, i2, i3, _⟩, _, _⟩ :=
    crawlRun_spec env cfg store₀ chroma₀ file₀ fuel s' h
  exact ⟨i1, by omega, i3⟩

theorem seq_crawl_budget_and_depth_bounds_witness :
    seedRun.link_count ≤ cfgW.max_links ∧
    seedRun.results.length ≤ cfgW.max_links ∧
    ("s", 0).2 ≤ cfgW.max_depth :=
  have t := seq_crawl_budget_and_depth_bounds envOk cfgW [] [] none 9 seedRun
    (by rfl)
  ⟨t.1, t.2.1, t.2.2 ("s", 0) (by decide)⟩

/-- C2 counterexample: the threaded loop submits every entry of the loaded
queue to `process_url` with no depth check, so a restored snapshot entry of
depth 2 is fetched although `max_depth = 1`. -/
theorem threaded_crawl_fetches_beyond_max_depth :
    (threadedRun envOk cfgShallow [] [] (some (dumpQ [("u", 2)]))).fetchedLog =
      [("u", 2)] ∧
    cfgShallow.max_depth < 2 := by
  decide

/-- C3 (amended): `process_url` never invokes the fetcher for a
store-recorded url only when called with `depth ≠ 0`; the sequential crawler
calls it with a literal depth `0` for every entry, so a store-recorded url
restored from a snapshot is re-fetched (see the counterexample). -/
theorem process_url_skips_visited_at_nonzero_depth (env : Env) (cfg : Config)
    (store : Store) (chroma : List String) (url : String) (depth : Nat)
    (hd : depth ≠ 0) (hv : isUrlVisited store url = true) :
    (process_url env cfg store chroma url depth).fetched = false ∧
    (process_url env cfg store chroma url depth).store = store ∧
    (process_url env cfg store chroma url depth).ret = [none, none, none] := by
  unfold process_url
  rw [if_pos ⟨hd, hv⟩]
  exact ⟨rfl, rfl, rfl⟩

theorem process_url_skips_visited_at_nonzero_depth_witness :
    (process_url envOk cfgW [⟨"B", 0, 1, none, false⟩] [] "B" 1).fetched =
      false ∧
    (process_url envOk cfgW [⟨"B", 0, 1, none, false⟩] [] "B" 1).store =
      [⟨"B", 0, 1, none, false⟩] ∧
    (process_url envOk cfgW [⟨"B", 0, 1, none, false⟩] [] "B" 1).ret =
      [none, none, none] :=
  process_url_skips_visited_at_nonzero_depth envOk cfgW
    [⟨"B", 0, 1, none, false⟩] [] "B" 1 (by decide) (by decide)

/-- C3 counterexample: url `"B"` has a metadata record, yet a sequential run
restored from a snapshot containing `("B", 1)` fetches `"B"` again — the
crawler passes depth `0` to `process_url`, which bypasses the store check. -/
theorem seq_crawl_refetches_recorded_url :
    isUrlVisited [⟨"B", 0, 1, none, false⟩] "B" = true ∧
    (crawlRun envOk cfgW [⟨"B", 0, 1, none, false⟩] []
        (some (dumpQ [("B", 1)])) 9).map (fun s => s.fetchedLog) =
      some [("B", 1)] := by
  decide

/-- C4: saving a frontier with `save_queue` and loading it back with
`load_queue` restores it exactly, order included. -/
theorem save_load_queue_roundtrip (F : List (String × Nat)) (_hF : F ≠ []) :
    load_queue (save_queue F) = F := by
  simp [save_queue, load_queue, parseQ_dumpQ]

theorem save_load_queue_roundtrip_witness :
    ([("a", 1), ("b", 2)] : List (String × Nat)) ≠ [] ∧
    load_queue (save_queue [("a", 1), ("b", 2)]) = [("a", 1), ("b", 2)] :=
  ⟨by decide, save_load_queue_roundtrip [("a", 1), ("b", 2)] (by decide)⟩

/-- C5 (amended): when the store holds no record for the url yet, calling
`save_url_metadata` twice for it — whatever the second call's hash, depth and
title — leaves exactly one record for the url, holding the first call's
values, and the second call is a no-op.  (When a record pre-exists, the
pre-existing record wins, not the first call's values; see the
counterexample.) -/
theorem save_url_metadata_idempotent_on_fresh_url (store : Store)
    (url : String) (h1 h2 : Int) (d1 d2 : Nat) (t1 t2 : Option String)
    (habs : isUrlVisited store url = false) :
    save_url_metadata (save_url_metadata store url h1 d1 t1) url h2 d2 t2 =
      save_url_metadata store url h1 d1 t1 ∧
    recordsFor (save_url_metadata store url h1 d1 t1) url =
      [⟨url, h1, d1, t1, false⟩] := by
  have hfirst : save_url_metadata store url h1 d1 t1 =
      store ++ [⟨url, h1, d1, t1, false⟩] := by
    simp [save_url_metadata, habs]
  have hnil : recordsFor store url = [] := by
    unfold recordsFor
    rw [List.filter_eq_nil_iff]
    intro r hr hru
    have : isUrlVisited store url = true :=
      List.any_eq_true.mpr ⟨r, hr, hru⟩
    rw [this] at habs
    exact absurd habs (by decide)
  constructor
  · rw [hfirst]
    simp [save_url_metadata, isUrlVisited]
  · rw [hfirst]
    unfold recordsFor at hnil ⊢
    rw [List.filter_append, hnil]
    simp

theorem save_url_metadata_idempotent_on_fresh_url_witness :
    save_url_metadata (save_url_metadata [] "u" 7 1 (some "t")) "u" 8 2
        (some "t2") =
      save_url_metadata [] "u" 7 1 (some "t") ∧
    recordsFor (save_url_metadata [] "u" 7 1 (some "t")) "u" =
      [⟨"u", 7, 1, some "t", false⟩] :=
  save_url_metadata_idempotent_on_fresh_url [] "u" 7 8 1 2 (some "t")
    (some "t2") (by decide)

/-- C5 counterexample: on a store that already holds a record for `"u"`,
two `save_url_metadata` calls leave the pre-existing record, not the first
call's values — so the claim's "for every store state" is too strong. -/
theorem save_url_metadata_preexisting_record_wins :
    recordsFor (save_url_metadata (save_url_metadata
        [⟨"u", 5, 0, none, false⟩] "u" 7 1 (some "t")) "u" 8 2 (some "t2"))
        "u" =
      [⟨"u", 5, 0, none, false⟩] ∧
    ([⟨"u", 5, 0, none, false⟩] : List UrlRecord) ≠
      [⟨"u", 7, 1, some "t", false⟩] := by
  decide

/-- C6: when the fetch hard-fails (`fetch_with_headless_browser` returns
`None`), `process_url` writes nothing: the metadata store and the ChromaDB
collection are unchanged and no exception escapes, so the url stays
unrecorded and eligible for a future retry. -/
theorem process_url_fetch_failure_leaves_store_unchanged (env : Env)
    (cfg : Config) (store : Store) (chroma : List String) (url : String)
    (depth : Nat) (h : env.fetch url = none) :
    (process_url env cfg store chroma url depth).store = store ∧
    (process_url env cfg store chroma url depth).chroma = chroma ∧
    (process_url env cfg store chroma url depth).err = false := by
  unfold process_url
  split
  · exact ⟨rfl, rfl, rfl⟩
  · simp [h, truthyHtml]

theorem process_url_fetch_failure_leaves_store_unchanged_witness :
    envNoFetch.fetch "u" = none ∧
    (process_url envNoFetch cfgW [] ["c"] "u" 0).store = [] ∧
    (process_url envNoFetch cfgW [] ["c"] "u" 0).chroma = ["c"] ∧
    (process_url envNoFetch cfgW [] ["c"] "u" 0).err = false :=
  have t := process_url_fetch_failure_leaves_store_unchanged envNoFetch cfgW
    [] ["c"] "u" 0 rfl
  ⟨rfl, t.1, t.2.1, t.2.2⟩

/-- C7 (amended): every non-erroring terminating sequential run exits exactly
when the frontier is empty or `link_count` has reached `max_links`; on exit
the durable snapshot is absent when the frontier is empty, and is never
removed when the frontier is non-empty.  (The threaded loop instead exits
when the submitted batch drains; see the counterexample.) -/
theorem seq_crawl_exit_condition (env : Env) (cfg : Config) (store₀ : Store)
    (chroma₀ : List String) (file₀ : Option (List Token)) (fuel : Nat)
    (s' : SeqState)
    (h : crawlRun env cfg store₀ chroma₀ file₀ fuel = some s')
    (he : s'.errored = false) :
    (s'.queue = [] ∨ s'.link_count = cfg.max_links) ∧
    (s'.queue = [] → s'.file = none) ∧
    (s'.queue ≠ [] → s'.removed = false) := by
  obtain ⟨_, _, h3⟩ := crawlRun_spec env cfg store₀ chroma₀ file₀ fuel s' h
  obtain ⟨a, b, c⟩ := h3 he
  exact ⟨a, b, fun hq => (c hq).1⟩

theorem seq_crawl_exit_condition_witness :
    (seedRun.queue = [] ∨ seedRun.link_count = cfgW.max_links) ∧
    seedRun.file = none :=
  have t := seq_crawl_exit_condition envOk cfgW [] [] none 9 seedRun
    (by rfl) (by rfl)
  ⟨t.1, t.2.1 (by decide)⟩

/-- C7 counterexample: a threaded run with the seed alone exits with a
non-empty frontier and `link_count = 0 ≠ max_links = 30` — the loop ends when
the submitted futures drain, not when the frontier empties or the budget is
reached. -/
theorem threaded_crawl_exits_with_pending_queue :
    ¬((threadedRun envOk cfgW [] [] none).queue = [] ∨
      (threadedRun envOk cfgW [] [] none).link_count = cfgW.max_links) := by
  decide

/-- C8 (amended): every checkpoint of the sequential loop saves the frontier
from which the entry being processed was already popped: the saved snapshot
is the pre-pop frontier minus its head plus newly discovered entries, none of
which carries the popped url.  (The threaded loop persists snapshots that
still contain every dispatched entry; see the counterexample.) -/
theorem seq_checkpoints_exclude_current_entry (env : Env) (cfg : Config)
    (store₀ : Store) (chroma₀ : List String) (file₀ : Option (List Token))
    (fuel : Nat) (s' : SeqState) (cp : Checkpoint)
    (h : crawlRun env cfg store₀ chroma₀ file₀ fuel = some s')
    (hcp : cp ∈ s'.checkpoints) : CkptOk cp :=
  (crawlRun_spec env cfg store₀ chroma₀ file₀ fuel s' h).1.2.2.2 cp hcp

theorem seq_checkpoints_exclude_current_entry_witness :
    (⟨("s", 0), [("s", 0)], []⟩ : Checkpoint).pre.head? = some ("s", 0) :=
  (seq_checkpoints_exclude_current_entry envOk cfgW [] [] none 9 seedRun
    ⟨("s", 0), [("s", 0)], []⟩ (by rfl) (by decide)).1

/-- C8 counterexample: the threaded loop never pops the queue it dispatched,
so the snapshot it persists still contains the entry `("s", 0)` that was
submitted to the pool and already processed (it appears in the fetch log). -/
theorem threaded_snapshot_contains_dispatched_entry :
    (threadedRun envOk cfgW [] [] none).savedLog = [[("s", 0)]] ∧
    (threadedRun envOk cfgW [] [] none).submitted = [("s", 0)] ∧
    (threadedRun envOk cfgW [] [] none).fetchedLog = [("s", 0)] := by
  decide

/-- C9 (amended): when an unexpected error escapes the sequential control
loop it is caught at the top level and the partial results accumulated so far
are returned (one per counted document), but the handler writes no
checkpoint: the durable snapshot stays exactly the last end-of-iteration
save — or the initial file when no iteration completed — and is never
deleted on this path. -/
theorem seq_crawl_error_no_checkpoint_in_handler (env : Env) (cfg : Config)
    (store₀ : Store) (chroma₀ : List String) (file₀ : Option (List Token))
    (fuel : Nat) (s' : SeqState)
    (h : crawlRun env cfg store₀ chroma₀ file₀ fuel = some s')
    (he : s'.errored = true) :
    s'.removed = false ∧
    s'.file = headFile file₀ s'.savedLog ∧
    s'.results.length = s'.link_count := by
  obtain ⟨⟨_, i2, _, _⟩, h2, _⟩ :=
    crawlRun_spec env cfg store₀ chroma₀ file₀ fuel s' h
  obtain ⟨a, b⟩ := h2 he
  exact ⟨a, b, i2⟩

theorem seq_crawl_error_no_checkpoint_in_handler_witness :
    errRun.removed = false ∧
    errRun.file = headFile none errRun.savedLog ∧
    errRun.results.length = errRun.link_count :=
  seq_crawl_error_no_checkpoint_in_handler envMetaFail cfgW [] [] none 9
    errRun (by rfl) (by rfl)

/-- C9 counterexample: in the run where processing the seed raises, the error
is caught and the (empty) partial results are returned, but no checkpoint is
ever written during the call: the save log is empty and the durable file is
still absent — contradicting "the frontier is checkpointed before the call
returns". -/
theorem seq_crawl_error_returns_without_checkpoint :
    crawlRun envMetaFail cfgW [] [] none 9 = some errRun ∧
    errRun.errored = true ∧ errRun.savedLog = [] ∧ errRun.file = none ∧
    errRun.results = [] :=
  ⟨rfl, rfl, rfl, rfl, rfl⟩

/-- C10: `process_url` always either raises or returns a 3-tuple, so the
threaded completion handler's 2-name unpacking always fails and the per-url
`except` swallows the `ValueError`: every `comprehensive_crawler_threaded`
run yields nothing, never increments `link_count`, never appends to the
queue, and the tasks submitted to the pool are fixed once — the queue as
loaded (seeded when empty) at the start. -/
theorem threaded_crawler_yields_nothing :
    (∀ (env : Env) (cfg : Config) (store : Store) (chroma : List String)
        (url : String) (depth : Nat),
      (process_url env cfg store chroma url depth).err = true ∨
      (process_url env cfg store chroma url depth).ret.length = 3) ∧
    (∀ (env : Env) (cfg : Config) (store₀ : Store) (chroma₀ : List String)
        (file₀ : Option (List Token)),
      (threadedRun env cfg store₀ chroma₀ file₀).yields = [] ∧
      (threadedRun env cfg store₀ chroma₀ file₀).link_count = 0 ∧
      (threadedRun env cfg store₀ chroma₀ file₀).queue =
        (threadedRun env cfg store₀ chroma₀ file₀).submitted ∧
      (threadedRun env cfg store₀ chroma₀ file₀).submitted =
        initQueue cfg file₀) := by
  constructor
  · intro env cfg store chroma url depth
    unfold process_url
    repeat' split
    all_goals first
    | (simp; done)
    | (dsimp only; split <;> simp)
  · intro env cfg store₀ chroma₀ file₀
    obtain ⟨a, b, c, d, _⟩ := threadedRun_noop env cfg store₀ chroma₀ file₀
    exact ⟨a, b, c, d⟩

end Scraper
